import Mathlib

/-!
Shallow embedding of the health-checker core.

Embedded components, each translated from the corresponding Go source:
* the script sanitizer/parser `ParseScripts` of the options package,
  including the quote-aware tokenizer it builds on `encoding/csv`
  (`Comma = ' '`, `TrimLeadingSpace = true`, `LazyQuotes = false`);
* the orchestration pass `runChecks` of the server package, sequentialized:
  every launched probe's observed outcome (success, genuine failure with its
  error text, or suppressed context cancellation) is supplied by an explicit
  environment, and the aggregate error list is collected in launch order;
* the HTTP probe `attemptHttpConnection`, with the network, the response and
  the regular-expression engine supplied by an explicit world parameter;
* the JSON rendering of `DetailedResponse` done by `encoding/json`
  (`omitempty` on the errors field, HTML-escaping marshaller);
* the flag assembly `parseOptions` of the commands package.

External effects (filesystem `os.Stat`, sockets, subprocesses, the wall
clock, the regexp engine) are passed in as explicit parameters, so every
definition is executable.
-/

/-- One parsed script of the options package: executable path plus argument
list.  A Go `[]string` distinguishes `nil` from an empty slice, so `Args` is
an `Option (List String)` with `none` standing for a nil slice;
`ParseScripts` always produces `some`, mirroring `scriptParams := []string{}`
in the source. -/
structure Script where
  Name : String
  Args : Option (List String)
deriving DecidableEq

/-- Character class of the source regex `allowedScriptPattern`,
`^[a-zA-Z0-9/\-_ .":]+$`: ASCII alphanumerics, slash, dash, underscore,
space, dot, double quote and colon. -/
def allowedScriptChar (c : Char) : Bool :=
  c.isAlphanum || c = '/' || c = '-' || c = '_' || c = ' ' || c = '.' || c = '"' || c = ':'

/-- `allowedScriptPattern.MatchString s`: the doubly anchored one-or-more
character class matches exactly the nonempty strings all of whose characters
lie in the class. -/
def allowedScriptPattern (s : String) : Bool :=
  !s.data.isEmpty && s.data.all allowedScriptChar

/-- `unicode.IsSpace` restricted to the Latin-1 range (the characters that
can reach the csv reader here; after sanitization only the plain space is
reachable).  Used by the reader's `TrimLeadingSpace`. -/
def csvIsSpace (c : Char) : Bool :=
  c = ' ' || c = '\t' || c = '\n' || c = Char.ofNat 0x0b || c = Char.ofNat 0x0c ||
    c = '\r' || c = Char.ofNat 0x85 || c = Char.ofNat 0xa0

/-- Quoted-field scanner of `encoding/csv` (`Comma = ' '`,
`LazyQuotes = false`), specialised to a single input line with no newline
characters (the sanitizer rejects newlines before the reader runs).
`acc` is the record buffer holding the part of the field read so far.
Returns `(field, rest-of-line, end-of-record flag)`; `none` models the
reader's `ErrQuote` parse error (unterminated quote or a quote followed by
anything but a quote, the delimiter, or end of line). -/
def csvQuotedField (acc : List Char) : List Char → Option (List Char × List Char × Bool)
  | [] => none
  | '"' :: rest =>
    match rest with
    | '"' :: rest2 => csvQuotedField (acc ++ ['"']) rest2
    | ' ' :: rest2 => some (acc, rest2, false)
    | [] => some (acc, [], true)
    | _ => none
  | c :: rest => csvQuotedField (acc ++ [c]) rest

/-- The `parseField` loop of `csv.Reader.Read` with `Comma = ' '` and
`TrimLeadingSpace = true`, over a single line.  Each iteration trims leading
white space, then reads one quoted or bare field; a bare field containing a
quote is the reader's `ErrBareQuote` error (`none`).  Every iteration that
recurses consumes at least one character, so `length + 1` fuel is never
exhausted on the inputs the function is called with. -/
def csvParseFields : Nat → List Char → List String → Option (List String)
  | 0, _, _ => none
  | fuel + 1, line, acc =>
    let t := line.dropWhile csvIsSpace
    match t with
    | '"' :: rest =>
      match csvQuotedField [] rest with
      | none => none
      | some (f, _, true) => some (acc ++ [String.mk f])
      | some (f, rest2, false) => csvParseFields fuel rest2 (acc ++ [String.mk f])
    | _ =>
      let field := t.takeWhile (fun c => c ≠ ' ')
      if field.contains '"' then none
      else
        match t.dropWhile (fun c => c ≠ ' ') with
        | ' ' :: rest2 => csvParseFields fuel rest2 (acc ++ [String.mk field])
        | _ => some (acc ++ [String.mk field])

/-- `csv.Reader.Read` on the one-line input `ParseScripts` feeds it: an
empty line is skipped by the reader, which then reports `io.EOF`, an error
(`none`). -/
def csvReadLine (s : String) : Option (List String) :=
  if s.isEmpty then none
  else csvParseFields (s.length + 1) s.data []

/-- The tokenization step of `ParseScripts`: the csv read, falling back to a
plain split on single spaces (`strings.Split(s, " ")`) when the reader
errors or yields no fields. -/
def scriptTokens (s : String) : List String :=
  match csvReadLine s with
  | some arr => if arr.isEmpty then s.splitOn " " else arr
  | none => s.splitOn " "

/-- `ParseScripts` of the options package.  The filesystem is the explicit
parameter `stat`: `stat p = none` models `os.Stat(p)` returning an error,
`stat p = some isDir` a successful stat with the `IsDir()` bit.  The Go
function returns `(nil, err)` on the first invalid entry, so the error
branch carries no partial list. -/
def ParseScripts (stat : String → Option Bool) : List String → Except String (List Script)
  | [] => .ok []
  | s :: rest =>
    if !(allowedScriptPattern s) then
      .error ("script contains forbidden characters for safety: " ++ s)
    else
      let commandArr := scriptTokens s
      let scriptName := commandArr.headD ""
      match stat scriptName with
      | none => .error ("script provided is not a valid or accessible file on disk: " ++ scriptName)
      | some isDir =>
        if isDir then
          .error ("script provided is not a valid or accessible file on disk: " ++ scriptName)
        else
          let scriptParams : Option (List String) :=
            some (if commandArr.length > 1 then commandArr.drop 1 else [])
          match ParseScripts stat rest with
          | .ok tl => .ok ({ Name := scriptName, Args := scriptParams } :: tl)
          | .error e => .error e

/-- One HTTP check of the options package: URL plus optional verify-payload
regular expression (empty string = no pattern configured). -/
structure HttpCheck where
  Url : String
  VerifyPayload : String
deriving DecidableEq

/-- The `options.Options` configuration record (logger omitted).  The
current options/server sources carry ports as strings (bare port or
`host:port`). -/
structure Options where
  Ports : List String
  Scripts : List Script
  HttpChecks : List HttpCheck
  ScriptTimeout : Int
  HttpReadTimeout : Int
  HttpWriteTimeout : Int
  HttpIdleTimeout : Int
  TcpDialTimeout : Int
  HttpDialTimeout : Int
  Singleflight : Bool
  DetailedStatus : Bool
  AllowInsecureTLS : Bool
  Listener : String
deriving DecidableEq

/-- Observed outcome of one TCP port probe goroutine in `runChecks`:
the dial succeeded, or it returned an error satisfying
`errors.Is(err, context.Canceled)` (suppressed), or it returned a genuine
error whose `Error()` text is recorded. -/
inductive TcpOutcome
  | success
  | canceledErr
  | failure (err : String)
deriving DecidableEq

/-- Observed outcome of one script probe goroutine: the command exited with
status zero, or it errored while `masterCtx.Err() != nil` (suppressed
short-circuit noise), or it errored with the given error text and combined
output. -/
inductive ScriptOutcome
  | success
  | errorCanceled
  | failure (err : String) (output : String)
deriving DecidableEq

/-- Observed outcome of one HTTP probe goroutine, classified like
`TcpOutcome`. -/
inductive HttpOutcome
  | success
  | canceledErr
  | failure (err : String)
deriving DecidableEq

/-- The environment of one `runChecks` pass: what each launched probe
observes (indexed by position in its configuration list) and the wall-clock
elapsed-time string `time.Since(startTime).String()` read at the join. -/
structure RunEnv where
  tcp : Nat → TcpOutcome
  script : Nat → ScriptOutcome
  http : Nat → HttpOutcome
  elapsed : String

/-- `fmt.Sprintf("TCP connection to %s failed: %s", portStr, err.Error())`. -/
def tcpMessage (portStr err : String) : String :=
  "TCP connection to " ++ portStr ++ " failed: " ++ err

/-- `fmt.Sprintf("Script %v failed: %s (Output: %s)", script.Name, err.Error(), string(output))`. -/
def scriptMessage (name err output : String) : String :=
  "Script " ++ name ++ " failed: " ++ err ++ " (Output: " ++ output ++ ")"

/-- `fmt.Sprintf("HTTP check to %s failed: %s", httpCheck.Url, err.Error())`. -/
def httpMessage (url err : String) : String :=
  "HTTP check to " ++ url ++ " failed: " ++ err

/-- Message the `i`-th TCP port goroutine appends to the aggregate list, if
any: a genuine failure appends the formatted message, success appends
nothing, and a `context.Canceled` error returns early appending nothing. -/
def tcpMsgAt (env : RunEnv) (i : Nat) (portStr : String) : Option String :=
  match env.tcp i with
  | .failure e => some (tcpMessage portStr e)
  | _ => none

/-- Message the `i`-th script goroutine appends, if any; an error observed
with the master context already canceled is suppressed. -/
def scriptMsgAt (env : RunEnv) (i : Nat) (sc : Script) : Option String :=
  match env.script i with
  | .failure e o => some (scriptMessage sc.Name e o)
  | _ => none

/-- Message the `i`-th HTTP check goroutine appends, if any. -/
def httpMsgAt (env : RunEnv) (i : Nat) (c : HttpCheck) : Option String :=
  match env.http i with
  | .failure e => some (httpMessage c.Url e)
  | _ => none

/-- Collect the messages contributed by one family of probe goroutines, in
launch order, starting at index `i`.  (The mutex-guarded appends can
interleave in any order at run time; this fixed linearization is adequate
for the properties below, none of which depend on the order.) -/
def gatherMessagesFrom (f : Nat → α → Option String) : Nat → List α → List String
  | _, [] => []
  | i, x :: xs =>
    match f i x with
    | some m => m :: gatherMessagesFrom f (i + 1) xs
    | none => gatherMessagesFrom f (i + 1) xs

/-- The aggregate `errorMessages` list read by `runChecks` after
`waitGroup.Wait()`: contributions of the port goroutines, the script
goroutines and the HTTP goroutines. -/
def runChecksErrors (opts : Options) (env : RunEnv) : List String :=
  gatherMessagesFrom (tcpMsgAt env) 0 opts.Ports ++
    gatherMessagesFrom (scriptMsgAt env) 0 opts.Scripts ++
    gatherMessagesFrom (httpMsgAt env) 0 opts.HttpChecks

/-- Lower-case hexadecimal digit, as used by `encoding/json`'s `\u00xx`
escapes. -/
def jsonHexDigit (n : Nat) : Char :=
  if n < 10 then Char.ofNat (48 + n) else Char.ofNat (87 + n)

/-- Per-character escaping of `encoding/json`'s string encoder with its
default HTML escaping: quote and backslash get a backslash escape, newline,
carriage return and tab their short forms, other control characters
`\u00xx`, the HTML-sensitive `<`, `>`, `&` their `\u00xx` forms, and the
line separators U+2028/U+2029 their `\u20xx` forms; everything else is
emitted verbatim. -/
def jsonEscapeChar (c : Char) : String :=
  if c = '"' then "\\\""
  else if c = '\\' then "\\\\"
  else if c = '\n' then "\\n"
  else if c = '\r' then "\\r"
  else if c = '\t' then "\\t"
  else if c.toNat < 0x20 then
    String.mk ['\\', 'u', '0', '0', jsonHexDigit (c.toNat / 16), jsonHexDigit (c.toNat % 16)]
  else if c = '<' then "\\u003c"
  else if c = '>' then "\\u003e"
  else if c = '&' then "\\u0026"
  else if c.toNat = 0x2028 then "\\u2028"
  else if c.toNat = 0x2029 then "\\u2029"
  else String.singleton c

/-- JSON escaping of a whole string. -/
def jsonEscapeString (s : String) : String :=
  String.join (s.data.map jsonEscapeChar)

/-- A JSON string literal. -/
def jsonQuote (s : String) : String :=
  "\"" ++ jsonEscapeString s ++ "\""

/-- A JSON array of string literals. -/
def jsonStringArray (l : List String) : String :=
  "[" ++ String.intercalate "," (l.map jsonQuote) ++ "]"

/-- The `DetailedResponse` struct of the server package, with json tags
`status`, `elapsed_time` and `errors,omitempty`. -/
structure DetailedResponse where
  Status : String
  ElapsedTime : String
  Errors : List String
deriving DecidableEq

/-- `json.Marshal` of a `DetailedResponse`: the `errors` field is omitted
entirely when the list has length zero (`omitempty`), never emitted as an
empty array.  Marshalling of this struct cannot fail, so the source's
error branch is unreachable. -/
def marshalDetailedResponse (d : DetailedResponse) : String :=
  "\x7b\"status\":" ++ jsonQuote d.Status ++ ",\"elapsed_time\":" ++ jsonQuote d.ElapsedTime ++
    (if d.Errors.isEmpty then "" else ",\"errors\":" ++ jsonStringArray d.Errors) ++ "\x7d"

/-- The `httpResponse` triple the server hands to the transport. -/
structure httpResponse where
  StatusCode : Nat
  Body : String
  ContentType : String
deriving DecidableEq

/-- `runChecks` of the server package, sequentialized against the probe
environment: aggregate the error messages, then derive status code
(`http.StatusOK` = 200, `http.StatusGatewayTimeout` = 504), status text,
content type and body exactly as the source does. -/
def runChecks (opts : Options) (env : RunEnv) : httpResponse :=
  let errorMessages := runChecksErrors opts env
  let statusCode := if errorMessages.length > 0 then 504 else 200
  let statusText := if errorMessages.length > 0 then "At least one health check failed" else "OK"
  let contentType := if opts.DetailedStatus then "application/json" else "text/plain"
  let body :=
    if opts.DetailedStatus then
      marshalDetailedResponse
        { Status := statusText, ElapsedTime := env.elapsed, Errors := errorMessages }
    else if errorMessages.length > 0 then statusText else "OK"
  { StatusCode := statusCode, Body := body, ContentType := contentType }

/-- Replace a suppressed-cancellation TCP outcome by success; genuine
failures and successes are untouched. -/
def purgeTcp : TcpOutcome → TcpOutcome
  | .canceledErr => .success
  | o => o

/-- Replace a suppressed script error (master context already canceled) by
success. -/
def purgeScript : ScriptOutcome → ScriptOutcome
  | .errorCanceled => .success
  | o => o

/-- Replace a suppressed-cancellation HTTP outcome by success. -/
def purgeHttp : HttpOutcome → HttpOutcome
  | .canceledErr => .success
  | o => o

/-- The environment with every cancellation-noise outcome replaced by plain
success. -/
def purgeEnv (env : RunEnv) : RunEnv :=
  { tcp := fun i => purgeTcp (env.tcp i)
    script := fun i => purgeScript (env.script i)
    http := fun i => purgeHttp (env.http i)
    elapsed := env.elapsed }

/-- Identifier of one launched probe within a configuration: position in the
port list, the script list, or the HTTP check list. -/
inductive ProbeId
  | tcp (i : Nat)
  | script (i : Nat)
  | http (i : Nat)
deriving DecidableEq

/-- The probe identifier is in range for the configuration. -/
def probeValid (opts : Options) : ProbeId → Prop
  | .tcp i => i < opts.Ports.length
  | .script i => i < opts.Scripts.length
  | .http i => i < opts.HttpChecks.length

/-- The probe's goroutine observed plain success. -/
def probeSucceeds (env : RunEnv) : ProbeId → Prop
  | .tcp i => env.tcp i = .success
  | .script i => env.script i = .success
  | .http i => env.http i = .success

/-- The probe's goroutine observed a genuine (non-cancellation) failure. -/
def probeFails (env : RunEnv) : ProbeId → Prop
  | .tcp i => ∃ e, env.tcp i = .failure e
  | .script i => ∃ e o, env.script i = .failure e o
  | .http i => ∃ e, env.http i = .failure e

/-- The name by which the probe is identified in failure messages: its port
string, script path, or URL. -/
def probeIdent (opts : Options) : ProbeId → String
  | .tcp i => opts.Ports.getD i ""
  | .script i => (opts.Scripts.getD i { Name := "", Args := none }).Name
  | .http i => (opts.HttpChecks.getD i { Url := "", VerifyPayload := "" }).Url

/-- The world one `attemptHttpConnection` call runs in: whether
`http.NewRequestWithContext` succeeds, what `client.Do` returns (an error
string, or status code plus body), whether reading the body succeeds when it
is read, and the behavior of `regexp.Match` (an error for an invalid
pattern, otherwise the match verdict). -/
structure HttpWorld where
  newRequestOk : Bool
  newRequestErr : String
  doResult : Except String (Int × String)
  bodyReadOk : Bool
  bodyReadErr : String
  regexMatch : String → String → Except String Bool

/-- `attemptHttpConnection` of the server package.  The body is read (and
its read can fail) only when a verify payload is configured; with no
payload the body is drained and the copy error ignored.  The status window
check precedes the regex check, exactly as in the source. -/
def attemptHttpConnection (check : HttpCheck) (w : HttpWorld) : Except String Unit :=
  if !w.newRequestOk then .error ("failed to create HTTP request: " ++ w.newRequestErr)
  else
    match w.doResult with
    | .error e => .error ("HTTP request failed: " ++ e)
    | .ok (code, bodyBytes) =>
      if check.VerifyPayload ≠ "" ∧ !w.bodyReadOk then
        .error ("failed to read HTTP response body: " ++ w.bodyReadErr)
      else if code < 200 ∨ 300 ≤ code then
        .error ("HTTP check returned non-2xx status code: " ++ toString code)
      else if check.VerifyPayload ≠ "" then
        match w.regexMatch check.VerifyPayload bodyBytes with
        | .error e =>
          .error ("invalid regular expression \x27" ++ check.VerifyPayload ++ "\x27: " ++ e)
        | .ok true => .ok ()
        | .ok false =>
          .error ("HTTP response body did not match verify-payload regex \x27" ++
            check.VerifyPayload ++ "\x27")
      else .ok ()

/-- The level names accepted by `logrus.ParseLevel`. -/
def logrusLevelNames : List String :=
  ["panic", "fatal", "error", "warn", "warning", "info", "debug", "trace"]

/-- `logrus.ParseLevel(s)` succeeds iff the lower-cased string is one of the
known level names. -/
def parseLogLevelOk (s : String) : Bool :=
  logrusLevelNames.contains (String.mk (s.data.map Char.toLower))

/-- The flag values `parseOptions` reads from the parsed command line. -/
structure FlagValues where
  logLevel : String
  ports : List Int
  scripts : List String
  http : List String
  verifyPayloads : List String
  singleflight : Bool
  detailedStatus : Bool
  allowInsecureTls : Bool
  scriptTimeout : Int
  httpReadTimeout : Int
  httpWriteTimeout : Int
  httpIdleTimeout : Int
  tcpDialTimeout : Int
  listener : String

/-- The http-check construction loop of `parseOptions`: the `i`-th URL is
paired with the `i`-th verify payload when one exists, with the empty string
otherwise. -/
def buildHttpChecksFrom (verifyPayloads : List String) : Nat → List String → List HttpCheck
  | _, [] => []
  | i, url :: rest =>
    { Url := url
      VerifyPayload := if verifyPayloads.length > i then verifyPayloads.getD i "" else "" }
      :: buildHttpChecksFrom verifyPayloads (i + 1) rest

/-- `parseOptions` of the commands package: validate the log level, parse
the scripts, enforce that `--verify-payload`, when present at all, is given
exactly once per `--http`, build the checks, require at least one probe and
a nonempty listener, and assemble the `Options`.  The flags.go snapshot
still collects ports as ints while the options/server sources carry them as
strings; the assembly renders them in decimal.  `HttpDialTimeout` has no
flag and keeps its zero value. -/
def parseOptions (stat : String → Option Bool) (f : FlagValues) : Except String Options :=
  if !(parseLogLevelOk f.logLevel) then
    .error ("The log-level value \"" ++ f.logLevel ++ "\" is invalid")
  else
    match ParseScripts stat f.scripts with
    | .error e => .error e
    | .ok scripts =>
      if f.verifyPayloads.length > 0 ∧ f.verifyPayloads.length ≠ f.http.length then
        .error "if --verify-payload is specified, it must be specified exactly once per --http flag"
      else
        let httpChecks := buildHttpChecksFrom f.verifyPayloads 0 f.http
        if f.ports.length = 0 ∧ scripts.length = 0 ∧ httpChecks.length = 0 then
          .error "Missing required parameter, one of --port / --script / --http required"
        else if f.listener = "" then
          .error "Missing required parameter --listener"
        else
          .ok { Ports := f.ports.map (fun p => toString p)
                Scripts := scripts
                HttpChecks := httpChecks
                ScriptTimeout := f.scriptTimeout
                HttpReadTimeout := f.httpReadTimeout
                HttpWriteTimeout := f.httpWriteTimeout
                HttpIdleTimeout := f.httpIdleTimeout
                TcpDialTimeout := f.tcpDialTimeout
                HttpDialTimeout := 0
                Singleflight := f.singleflight
                DetailedStatus := f.detailedStatus
                AllowInsecureTLS := f.allowInsecureTls
                Listener := f.listener }

/-- A filesystem on which no path stats successfully. -/
def statNone : String → Option Bool := fun _ => none

/-- A filesystem containing exactly the regular file
`/dir with space/run.sh`. -/
def statSpaceDir : String → Option Bool :=
  fun p => if p = "/dir with space/run.sh" then some false else none

/-- Sample configuration: one TCP port probe, plain output. -/
def optsTcpOnly : Options :=
  { Ports := ["5432"], Scripts := [], HttpChecks := []
    ScriptTimeout := 5, HttpReadTimeout := 5, HttpWriteTimeout := 0
    HttpIdleTimeout := 15, TcpDialTimeout := 5, HttpDialTimeout := 0
    Singleflight := false, DetailedStatus := false, AllowInsecureTLS := false
    Listener := "0.0.0.0:5500" }

/-- Sample configuration: one TCP port probe and one script probe. -/
def optsPortAndScript : Options :=
  { Ports := ["5432"], Scripts := [{ Name := "/usr/local/bin/zk-check.sh", Args := some [] }]
    HttpChecks := []
    ScriptTimeout := 5, HttpReadTimeout := 5, HttpWriteTimeout := 0
    HttpIdleTimeout := 15, TcpDialTimeout := 5, HttpDialTimeout := 0
    Singleflight := false, DetailedStatus := false, AllowInsecureTLS := false
    Listener := "0.0.0.0:5500" }

/-- Sample configuration: one TCP port probe with detailed JSON output. -/
def optsDetailed : Options :=
  { Ports := ["5432"], Scripts := [], HttpChecks := []
    ScriptTimeout := 5, HttpReadTimeout := 5, HttpWriteTimeout := 0
    HttpIdleTimeout := 15, TcpDialTimeout := 5, HttpDialTimeout := 0
    Singleflight := false, DetailedStatus := true, AllowInsecureTLS := false
    Listener := "0.0.0.0:5500" }

/-- Environment in which every probe observes success. -/
def envAllSuccess : RunEnv :=
  { tcp := fun _ => .success, script := fun _ => .success, http := fun _ => .success
    elapsed := "5.002s" }

/-- Environment in which script probe 0 fails and everything else
succeeds. -/
def envScriptZeroFails : RunEnv :=
  { tcp := fun _ => .success
    script := fun i => if i = 0 then .failure "exit status 1" "Connection refused" else .success
    http := fun _ => .success
    elapsed := "5.002s" }

/-- HTTP world delivering a 200 response whose body matches any pattern. -/
def httpWorldReady : HttpWorld :=
  { newRequestOk := true, newRequestErr := ""
    doResult := .ok (200, "\"status\": \"READY\"")
    bodyReadOk := true, bodyReadErr := ""
    regexMatch := fun _ _ => .ok true }

/-- Flag values with one `--http` but two `--verify-payload` occurrences. -/
def flagsMismatch : FlagValues :=
  { logLevel := "info", ports := [], scripts := []
    http := ["http://localhost:8080/health"], verifyPayloads := ["ready", "ok"]
    singleflight := false, detailedStatus := false, allowInsecureTls := false
    scriptTimeout := 5, httpReadTimeout := 5, httpWriteTimeout := 0
    httpIdleTimeout := 15, tcpDialTimeout := 5, listener := "0.0.0.0:5500" }

theorem list_getD_eq_getElem (l : List α) (d : α) (i : Nat) (h : i < l.length) :
    l.getD i d = l[i] :=
  List.getD_eq_getElem l d h

theorem gather_eq_nil (f : Nat → α → Option String) :
    ∀ (xs : List α) (n : Nat),
      (∀ i (hi : i < xs.length), f (n + i) xs[i] = none) →
      gatherMessagesFrom f n xs = [] := by
  intro xs
  induction xs with
  | nil => intro n _; rfl
  | cons x xs ih =>
    intro n h
    have h0 : f n x = none := by simpa using h 0 (Nat.succ_pos _)
    have hrest : gatherMessagesFrom f (n + 1) xs = [] := by
      apply ih
      intro i hi
      have hcall := h (i + 1) (Nat.succ_lt_succ hi)
      have harith : n + (i + 1) = n + 1 + i := by omega
      rw [harith] at hcall
      simpa using hcall
    simp [gatherMessagesFrom, h0, hrest]

theorem gather_eq_single (f : Nat → α → Option String) :
    ∀ (xs : List α) (n j : Nat) (hj : j < xs.length) (m : String),
      f (n + j) xs[j] = some m →
      (∀ i (hi : i < xs.length), i ≠ j → f (n + i) xs[i] = none) →
      gatherMessagesFrom f n xs = [m] := by
  intro xs
  induction xs with
  | nil => intro n j hj; simp at hj
  | cons x xs ih =>
    intro n j hj m hm hnone
    cases j with
    | zero =>
      have h0 : f n x = some m := by simpa using hm
      have hrest : gatherMessagesFrom f (n + 1) xs = [] := by
        apply gather_eq_nil
        intro i hi
        have hcall := hnone (i + 1) (Nat.succ_lt_succ hi) (Nat.succ_ne_zero i)
        have harith : n + (i + 1) = n + 1 + i := by omega
        rw [harith] at hcall
        simpa using hcall
      simp [gatherMessagesFrom, h0, hrest]
    | succ j =>
      have h0 : f n x = none := by simpa using hnone 0 (Nat.succ_pos _) (by omega)
      have hj' : j < xs.length := Nat.lt_of_succ_lt_succ hj
      have hm' : f (n + 1 + j) xs[j] = some m := by
        have harith : n + (j + 1) = n + 1 + j := by omega
        rw [harith] at hm
        simpa using hm
      have hnone' : ∀ i (hi : i < xs.length), i ≠ j → f (n + 1 + i) xs[i] = none := by
        intro i hi hne
        have hcall := hnone (i + 1) (Nat.succ_lt_succ hi) (by omega)
        have harith : n + (i + 1) = n + 1 + i := by omega
        rw [harith] at hcall
        simpa using hcall
      have hrest := ih (n + 1) j hj' m hm' hnone'
      simp [gatherMessagesFrom, h0, hrest]

theorem gather_congr (f g : Nat → α → Option String) (hfg : ∀ i x, f i x = g i x) :
    ∀ (xs : List α) (n : Nat), gatherMessagesFrom f n xs = gatherMessagesFrom g n xs := by
  intro xs
  induction xs with
  | nil => intro n; rfl
  | cons x xs ih =>
    intro n
    unfold gatherMessagesFrom
    rw [hfg]
    cases g n x <;> simp [ih]

/-- C1: for every configuration in which every launched probe succeeds,
`runChecks` returns status code 200 and an empty aggregate error list; and
in general the outcome is 200 (success) iff the aggregate error list is
empty. -/
theorem runChecks_success_iff (opts : Options) (env : RunEnv) :
    ((∀ i, i < opts.Ports.length → env.tcp i = .success) →
     (∀ i, i < opts.Scripts.length → env.script i = .success) →
     (∀ i, i < opts.HttpChecks.length → env.http i = .success) →
     (runChecks opts env).StatusCode = 200 ∧ runChecksErrors opts env = []) ∧
    ((runChecks opts env).StatusCode = 200 ↔ runChecksErrors opts env = []) := by
  constructor
  · intro ht hs hh
    have e1 : gatherMessagesFrom (tcpMsgAt env) 0 opts.Ports = [] := by
      apply gather_eq_nil
      intro i hi
      have := ht i hi
      simp only [Nat.zero_add]
      simp [tcpMsgAt, this]
    have e2 : gatherMessagesFrom (scriptMsgAt env) 0 opts.Scripts = [] := by
      apply gather_eq_nil
      intro i hi
      have := hs i hi
      simp only [Nat.zero_add]
      simp [scriptMsgAt, this]
    have e3 : gatherMessagesFrom (httpMsgAt env) 0 opts.HttpChecks = [] := by
      apply gather_eq_nil
      intro i hi
      have := hh i hi
      simp only [Nat.zero_add]
      simp [httpMsgAt, this]
    have herr : runChecksErrors opts env = [] := by
      simp [runChecksErrors, e1, e2, e3]
    exact ⟨by simp [runChecks, herr], herr⟩
  · cases hc : runChecksErrors opts env with
    | nil => simp [runChecks, hc]
    | cons a l => simp [runChecks, hc]

/-- C1 witness: a one-port configuration with a successful dial yields
status 200. -/
theorem runChecks_success_iff_witness :
    (runChecks optsTcpOnly envAllSuccess).StatusCode = 200 :=
  ((runChecks_success_iff optsTcpOnly envAllSuccess).1
    (fun _ _ => rfl) (fun _ _ => rfl) (fun _ _ => rfl)).1

/-- C2: with exactly one genuinely failing probe among the configured
probes (all the others succeeding), `runChecks` returns status 504 and the
aggregate error list is a single entry whose text names the failing probe
(its port string, script path, or URL). -/
theorem runChecks_single_failure (opts : Options) (env : RunEnv) (p : ProbeId)
    (hv : probeValid opts p) (hf : probeFails env p)
    (hrest : ∀ q, probeValid opts q → q ≠ p → probeSucceeds env q) :
    (runChecks opts env).StatusCode = 504 ∧
    ∃ m, runChecksErrors opts env = [m] ∧
      ∃ pre post, m = pre ++ probeIdent opts p ++ post := by
  cases p with
  | tcp j =>
    obtain ⟨e, he⟩ := hf
    have hj : j < opts.Ports.length := hv
    have e1 : gatherMessagesFrom (tcpMsgAt env) 0 opts.Ports = [tcpMessage opts.Ports[j] e] := by
      apply gather_eq_single _ _ _ j hj
      · simp only [Nat.zero_add]
        simp [tcpMsgAt, he]
      · intro i hi hne
        have := hrest (.tcp i) hi (by simp [hne])
        simp only [probeSucceeds] at this
        simp only [Nat.zero_add]
        simp [tcpMsgAt, this]
    have e2 : gatherMessagesFrom (scriptMsgAt env) 0 opts.Scripts = [] := by
      apply gather_eq_nil
      intro i hi
      have := hrest (.script i) hi (by simp)
      simp only [probeSucceeds] at this
      simp only [Nat.zero_add]
      simp [scriptMsgAt, this]
    have e3 : gatherMessagesFrom (httpMsgAt env) 0 opts.HttpChecks = [] := by
      apply gather_eq_nil
      intro i hi
      have := hrest (.http i) hi (by simp)
      simp only [probeSucceeds] at this
      simp only [Nat.zero_add]
      simp [httpMsgAt, this]
    have herr : runChecksErrors opts env = [tcpMessage opts.Ports[j] e] := by
      simp [runChecksErrors, e1, e2, e3]
    refine ⟨by simp [runChecks, herr], tcpMessage opts.Ports[j] e, herr,
      "TCP connection to ", " failed: " ++ e, ?_⟩
    simp only [probeIdent, list_getD_eq_getElem _ _ _ hj, tcpMessage, String.append_assoc]
  | script j =>
    obtain ⟨e, o, he⟩ := hf
    have hj : j < opts.Scripts.length := hv
    have e1 : gatherMessagesFrom (tcpMsgAt env) 0 opts.Ports = [] := by
      apply gather_eq_nil
      intro i hi
      have := hrest (.tcp i) hi (by simp)
      simp only [probeSucceeds] at this
      simp only [Nat.zero_add]
      simp [tcpMsgAt, this]
    have e2 : gatherMessagesFrom (scriptMsgAt env) 0 opts.Scripts =
        [scriptMessage (opts.Scripts[j]).Name e o] := by
      apply gather_eq_single _ _ _ j hj
      · simp only [Nat.zero_add]
        simp [scriptMsgAt, he]
      · intro i hi hne
        have := hrest (.script i) hi (by simp [hne])
        simp only [probeSucceeds] at this
        simp only [Nat.zero_add]
        simp [scriptMsgAt, this]
    have e3 : gatherMessagesFrom (httpMsgAt env) 0 opts.HttpChecks = [] := by
      apply gather_eq_nil
      intro i hi
      have := hrest (.http i) hi (by simp)
      simp only [probeSucceeds] at this
      simp only [Nat.zero_add]
      simp [httpMsgAt, this]
    have herr : runChecksErrors opts env = [scriptMessage (opts.Scripts[j]).Name e o] := by
      simp [runChecksErrors, e1, e2, e3]
    refine ⟨by simp [runChecks, herr], scriptMessage (opts.Scripts[j]).Name e o, herr,
      "Script ", " failed: " ++ e ++ " (Output: " ++ o ++ ")", ?_⟩
    simp only [probeIdent, list_getD_eq_getElem _ _ _ hj, scriptMessage, String.append_assoc]
  | http j =>
    obtain ⟨e, he⟩ := hf
    have hj : j < opts.HttpChecks.length := hv
    have e1 : gatherMessagesFrom (tcpMsgAt env) 0 opts.Ports = [] := by
      apply gather_eq_nil
      intro i hi
      have := hrest (.tcp i) hi (by simp)
      simp only [probeSucceeds] at this
      simp only [Nat.zero_add]
      simp [tcpMsgAt, this]
    have e2 : gatherMessagesFrom (scriptMsgAt env) 0 opts.Scripts = [] := by
      apply gather_eq_nil
      intro i hi
      have := hrest (.script i) hi (by simp)
      simp only [probeSucceeds] at this
      simp only [Nat.zero_add]
      simp [scriptMsgAt, this]
    have e3 : gatherMessagesFrom (httpMsgAt env) 0 opts.HttpChecks =
        [httpMessage (opts.HttpChecks[j]).Url e] := by
      apply gather_eq_single _ _ _ j hj
      · simp only [Nat.zero_add]
        simp [httpMsgAt, he]
      · intro i hi hne
        have := hrest (.http i) hi (by simp [hne])
        simp only [probeSucceeds] at this
        simp only [Nat.zero_add]
        simp [httpMsgAt, this]
    have herr : runChecksErrors opts env = [httpMessage (opts.HttpChecks[j]).Url e] := by
      simp [runChecksErrors, e1, e2, e3]
    refine ⟨by simp [runChecks, herr], httpMessage (opts.HttpChecks[j]).Url e, herr,
      "HTTP check to ", " failed: " ++ e, ?_⟩
    simp only [probeIdent, list_getD_eq_getElem _ _ _ hj, httpMessage, String.append_assoc]

/-- C2 witness: one port and one script, the script failing; status is
504. -/
theorem runChecks_single_failure_witness :
    (runChecks optsPortAndScript envScriptZeroFails).StatusCode = 504 := by
  have h := runChecks_single_failure optsPortAndScript envScriptZeroFails (.script 0)
    (by simp [probeValid, optsPortAndScript])
    (by exact ⟨"exit status 1", "Connection refused", rfl⟩)
    ?_
  · exact h.1
  · rintro (⟨i⟩ | ⟨i⟩ | ⟨i⟩) hval hne
    · rfl
    · have : i = 0 := by
        have : i < 1 := hval
        omega
      exact absurd (by rw [this]) hne
    · rfl

/-- C9: a probe that observes context cancellation after a sibling has
already failed (a TCP or HTTP probe whose error is `context.Canceled`, or a
script probe whose command errors while the master context is already
canceled) contributes nothing to the aggregate error list: replacing every
such suppressed outcome by plain success leaves the entire response
unchanged. -/
theorem runChecks_cancellation_suppressed (opts : Options) (env : RunEnv) :
    runChecks opts env = runChecks opts (purgeEnv env) := by
  have h1 : gatherMessagesFrom (tcpMsgAt (purgeEnv env)) 0 opts.Ports =
      gatherMessagesFrom (tcpMsgAt env) 0 opts.Ports := by
    apply gather_congr
    intro i x
    cases h : env.tcp i <;> simp [tcpMsgAt, purgeEnv, purgeTcp, h]
  have h2 : gatherMessagesFrom (scriptMsgAt (purgeEnv env)) 0 opts.Scripts =
      gatherMessagesFrom (scriptMsgAt env) 0 opts.Scripts := by
    apply gather_congr
    intro i x
    cases h : env.script i <;> simp [scriptMsgAt, purgeEnv, purgeScript, h]
  have h3 : gatherMessagesFrom (httpMsgAt (purgeEnv env)) 0 opts.HttpChecks =
      gatherMessagesFrom (httpMsgAt env) 0 opts.HttpChecks := by
    apply gather_congr
    intro i x
    cases h : env.http i <;> simp [httpMsgAt, purgeEnv, purgeHttp, h]
  have herr : runChecksErrors opts (purgeEnv env) = runChecksErrors opts env := by
    simp [runChecksErrors, h1, h2, h3]
  have helap : (purgeEnv env).elapsed = env.elapsed := rfl
  simp only [runChecks, herr, helap]

/-- C8: in detailed mode the body is the JSON marshalling of the
`DetailedResponse` holding the status sentence, the formatted elapsed time
and the verbatim aggregate error messages, served as `application/json`;
with no failures the `errors` field is omitted from the JSON entirely (not
emitted as an empty array).  In plain mode the body is the fixed success
string or the fixed failure sentence, served as `text/plain`. -/
theorem runChecks_response_format (opts : Options) (env : RunEnv) :
    (opts.DetailedStatus = true →
      (runChecks opts env).ContentType = "application/json" ∧
      (runChecks opts env).Body =
        marshalDetailedResponse
          { Status := if (runChecksErrors opts env).length > 0
                      then "At least one health check failed" else "OK"
            ElapsedTime := env.elapsed
            Errors := runChecksErrors opts env } ∧
      (runChecksErrors opts env = [] →
        (runChecks opts env).Body =
          "\x7b\"status\":\"OK\",\"elapsed_time\":" ++ jsonQuote env.elapsed ++ "\x7d")) ∧
    (opts.DetailedStatus = false →
      (runChecks opts env).ContentType = "text/plain" ∧
      (runChecksErrors opts env = [] → (runChecks opts env).Body = "OK") ∧
      (runChecksErrors opts env ≠ [] →
        (runChecks opts env).Body = "At least one health check failed")) := by
  constructor
  · intro hd
    refine ⟨by simp [runChecks, hd], by simp [runChecks, hd], ?_⟩
    intro herr
    simp only [runChecks, hd, herr]
    simp only [marshalDetailedResponse, List.length_nil, List.isEmpty_nil, if_true, gt_iff_lt,
      Nat.lt_irrefl, if_false]
    have hq : jsonQuote "OK" = "\"OK\"" := rfl
    simp only [if_neg (by omega : ¬ (0 : Nat) > 0), hq]
    rw [String.append_assoc "\x7b\"status\":\"OK\",\"elapsed_time\":" (jsonQuote env.elapsed) "\x7d"]
    rw [show ("\x7b\"status\":" ++ "\"OK\"" ++ ",\"elapsed_time\":" :String)
        = "\x7b\"status\":\"OK\",\"elapsed_time\":" from rfl]
    rw [String.append_assoc, String.append_assoc]
    exact congrArg (fun t => "\x7b\"status\":\"OK\",\"elapsed_time\":" ++ (jsonQuote env.elapsed ++ t)) rfl
  · intro hd
    refine ⟨by simp [runChecks, hd], ?_, ?_⟩
    · intro herr
      simp [runChecks, hd, herr]
    · intro herr
      cases hc : runChecksErrors opts env with
      | nil => exact absurd hc herr
      | cons a l => simp [runChecks, hd, hc]

/-- C8 witness: a detailed-mode run with no failures yields the JSON body
without any errors field. -/
theorem runChecks_response_format_witness :
    (runChecks optsDetailed envAllSuccess).Body =
      "\x7b\"status\":\"OK\",\"elapsed_time\":\"5.002s\"\x7d" := by
  have h := ((runChecks_response_format optsDetailed envAllSuccess).1 rfl).2.2 rfl
  simpa using h

theorem parseScripts_ok_sanitized (stat : String → Option Bool) :
    ∀ (ss : List String) (l : List Script), ParseScripts stat ss = .ok l →
      ∀ s ∈ ss, allowedScriptPattern s = true := by
  intro ss
  induction ss with
  | nil => simp
  | cons a rest ih =>
    intro l h s hs
    cases hp : allowedScriptPattern a with
    | false =>
      simp [ParseScripts, hp] at h
    | true =>
      cases hs with
      | head => exact hp
      | tail _ hs =>
        simp only [ParseScripts, hp, Bool.not_true, Bool.false_eq_true, if_false] at h
        cases hst : stat ((scriptTokens a).headD "") with
        | none => rw [hst] at h; simp at h
        | some isDir =>
          rw [hst] at h
          cases isDir with
          | true => simp at h
          | false =>
            simp only [if_false] at h
            cases hrest : ParseScripts stat rest with
            | error e => rw [hrest] at h; simp at h
            | ok tl => exact ih tl hrest s hs

/-- C4: a raw script string containing any character outside the allow-list
is rejected: on a singleton batch `ParseScripts` fails with the
sanitization error naming the offending string, and any batch containing
such a string yields an error and never a (partial) result list. -/
theorem parseScripts_forbidden_chars (stat : String → Option Bool)
    (scripts : List String) (s : String) (c : Char)
    (hmem : s ∈ scripts) (hc : c ∈ s.data) (hbad : allowedScriptChar c = false) :
    ParseScripts stat [s] = .error ("script contains forbidden characters for safety: " ++ s) ∧
    ∃ msg, ParseScripts stat scripts = .error msg := by
  have hall : s.data.all allowedScriptChar = false := by
    cases hq : s.data.all allowedScriptChar with
    | false => rfl
    | true =>
      have := List.all_eq_true.mp hq c hc
      rw [hbad] at this
      exact absurd this (by simp)
  have hpat : allowedScriptPattern s = false := by
    simp [allowedScriptPattern, hall]
  constructor
  · simp [ParseScripts, hpat]
  · cases hres : ParseScripts stat scripts with
    | error msg => exact ⟨msg, rfl⟩
    | ok l =>
      have := parseScripts_ok_sanitized stat scripts l hres s hmem
      rw [hpat] at this
      exact absurd this (by simp)

/-- C4 witness: the spec's example `foo.sh & rm -rf /` is rejected with the
sanitization error. -/
theorem parseScripts_forbidden_chars_witness :
    ParseScripts statNone ["foo.sh & rm -rf /"] =
      .error "script contains forbidden characters for safety: foo.sh & rm -rf /" := by
  have h := parseScripts_forbidden_chars statNone ["foo.sh & rm -rf /"] "foo.sh & rm -rf /" '&'
    (by simp) (by decide) (by decide)
  exact h.1

/-- C5: a script string that passes sanitization but whose first token does
not stat as an existing non-directory file on disk (in particular a path to
a nonexistent file, a bare shell built-in, or an ambient PATH binary with no
on-disk path) makes `ParseScripts` fail with the invalid-executable error
naming that token. -/
theorem parseScripts_missing_executable (stat : String → Option Bool) (s : String)
    (hpat : allowedScriptPattern s = true)
    (hstat : stat ((scriptTokens s).headD "") = none ∨
      stat ((scriptTokens s).headD "") = some true) :
    ParseScripts stat [s] =
      .error ("script provided is not a valid or accessible file on disk: " ++
        (scriptTokens s).headD "") := by
  rw [List.headD_eq_head?_getD] at hstat
  rcases hstat with h | h <;> simp [ParseScripts, hpat, h]

/-- C5 witness: a nonexistent path is rejected with the invalid-executable
error. -/
theorem parseScripts_missing_executable_witness :
    ParseScripts statNone ["/no/such/file.sh"] =
      .error "script provided is not a valid or accessible file on disk: /no/such/file.sh" := by
  have h := parseScripts_missing_executable statNone "/no/such/file.sh" (by decide) (Or.inl rfl)
  simpa using h

/-- C6: for every script string that passes sanitization and whose first
token stats as an existing non-directory file, `ParseScripts` returns the
script whose path is the first token of the quote-aware tokenization and
whose argument list is the (possibly empty, never nil) list of remaining
tokens; and the spec's example `"/dir with space/run.sh" arg1 arg2` parses
to path `/dir with space/run.sh` with arguments `[arg1, arg2]`. -/
theorem parseScripts_quote_aware :
    (∀ (stat : String → Option Bool) (s : String),
      allowedScriptPattern s = true →
      stat ((scriptTokens s).headD "") = some false →
      ParseScripts stat [s] =
        .ok [{ Name := (scriptTokens s).headD ""
               Args := some ((scriptTokens s).drop 1) }]) ∧
    ParseScripts statSpaceDir ["\"/dir with space/run.sh\" arg1 arg2"] =
      .ok [{ Name := "/dir with space/run.sh", Args := some ["arg1", "arg2"] }] := by
  have hdrop : ∀ (l : List String), (if 1 < l.length then l.tail else []) = l.tail := by
    intro l
    rcases l with _ | ⟨a, _ | ⟨b, t⟩⟩ <;> simp
  constructor
  · intro stat s hpat hstat
    rw [List.headD_eq_head?_getD] at hstat
    simp [ParseScripts, hpat, hstat, hdrop]
  · rfl

/-- C6 witness: the spec's example, parsed through the general statement at
its concrete input. -/
theorem parseScripts_quote_aware_witness :
    ParseScripts statSpaceDir ["\"/dir with space/run.sh\" arg1 arg2"] =
      .ok [{ Name := "/dir with space/run.sh", Args := some ["arg1", "arg2"] }] := by
  have h := parseScripts_quote_aware.1 statSpaceDir "\"/dir with space/run.sh\" arg1 arg2"
    (by decide) rfl
  exact h

/-- C7: once a response has been obtained (request created, `client.Do`
succeeded, body readable), `attemptHttpConnection` succeeds iff the status
code lies in `[200, 300)` and either no verify-payload pattern is
configured or the pattern matches the body; any non-2xx status fails with
the status-code error regardless of the body, and an invalid regular
expression is an ordinary error return naming the pattern, not a crash. -/
theorem attemptHttp_success_iff (check : HttpCheck) (w : HttpWorld) (code : Int) (bodyStr : String)
    (hreq : w.newRequestOk = true) (hdo : w.doResult = .ok (code, bodyStr))
    (hread : w.bodyReadOk = true) :
    (attemptHttpConnection check w = .ok () ↔
      ((200 ≤ code ∧ code < 300) ∧
       (check.VerifyPayload = "" ∨ w.regexMatch check.VerifyPayload bodyStr = .ok true))) ∧
    (¬(200 ≤ code ∧ code < 300) →
      attemptHttpConnection check w =
        .error ("HTTP check returned non-2xx status code: " ++ toString code)) ∧
    (∀ e, (200 ≤ code ∧ code < 300) → check.VerifyPayload ≠ "" →
      w.regexMatch check.VerifyPayload bodyStr = .error e →
      attemptHttpConnection check w =
        .error ("invalid regular expression \x27" ++ check.VerifyPayload ++ "\x27: " ++ e)) := by
  by_cases hrange : code < 200 ∨ 300 ≤ code
  · have hrun : attemptHttpConnection check w =
        .error ("HTTP check returned non-2xx status code: " ++ toString code) := by
      simp [attemptHttpConnection, hreq, hdo, hread, hrange]
    refine ⟨?_, fun _ => hrun, ?_⟩
    · rw [hrun]
      constructor
      · intro h; exact absurd h (by simp)
      · rintro ⟨⟨h1, h2⟩, _⟩; exact absurd hrange (by omega)
    · intro e hr hv hm; exact absurd hrange (by omega)
  · have hin : 200 ≤ code ∧ code < 300 := by omega
    by_cases hv : check.VerifyPayload = ""
    · have hrun : attemptHttpConnection check w = .ok () := by
        simp [attemptHttpConnection, hreq, hdo, hread, hrange, hv]
      refine ⟨?_, ?_, ?_⟩
      · rw [hrun]; simp [hin, hv]
      · intro hc; exact absurd hin hc
      · intro e _ hv2 _; exact absurd hv hv2
    · cases hm : w.regexMatch check.VerifyPayload bodyStr with
      | error e0 =>
        have hrun : attemptHttpConnection check w =
            .error ("invalid regular expression \x27" ++ check.VerifyPayload ++ "\x27: " ++ e0) := by
          simp [attemptHttpConnection, hreq, hdo, hread, hrange, hv, hm]
        refine ⟨?_, ?_, ?_⟩
        · rw [hrun]
          constructor
          · intro h; exact absurd h (by simp)
          · rintro ⟨_, h1 | h1⟩
            · exact absurd h1 hv
            · exact absurd h1 (by simp)
        · intro hc; exact absurd hin hc
        · intro e _ _ hm2
          injection hm2 with he
          rw [← he]
          exact hrun
      | ok b =>
        cases b with
        | true =>
          have hrun : attemptHttpConnection check w = .ok () := by
            simp [attemptHttpConnection, hreq, hdo, hread, hrange, hv, hm]
          refine ⟨?_, ?_, ?_⟩
          · rw [hrun]; simp [hin]
          · intro hc; exact absurd hin hc
          · intro e _ _ hm2; exact absurd hm2 (by simp)
        | false =>
          have hrun : attemptHttpConnection check w =
              .error ("HTTP response body did not match verify-payload regex \x27" ++
                check.VerifyPayload ++ "\x27") := by
            simp [attemptHttpConnection, hreq, hdo, hread, hrange, hv, hm]
          refine ⟨?_, ?_, ?_⟩
          · rw [hrun]
            constructor
            · intro h; exact absurd h (by simp)
            · rintro ⟨_, h1 | h1⟩
              · exact absurd h1 hv
              · exact absurd h1 (by simp)
          · intro hc; exact absurd hin hc
          · intro e _ _ hm2; exact absurd hm2 (by simp)

/-- C7 witness: a 200 response whose body matches the configured pattern
succeeds. -/
theorem attemptHttp_success_iff_witness :
    attemptHttpConnection { Url := "https://localhost:8443/api/v1/status", VerifyPayload := "READY" }
      httpWorldReady = .ok () := by
  have h := (attemptHttp_success_iff
    { Url := "https://localhost:8443/api/v1/status", VerifyPayload := "READY" }
    httpWorldReady 200 "\"status\": \"READY\"" rfl rfl rfl).1
  exact h.mpr ⟨⟨by omega, by omega⟩, Or.inr rfl⟩

theorem list_getD_of_len_le (l : List α) (d : α) (i : Nat) (h : l.length ≤ i) :
    l.getD i d = d := by
  induction l generalizing i with
  | nil => simp [List.getD]
  | cons a t ih =>
    cases i with
    | zero => simp at h
    | succ i => exact ih i (by simpa using h)

theorem buildHttpChecks_length (vps : List String) :
    ∀ (n : Nat) (urls : List String), (buildHttpChecksFrom vps n urls).length = urls.length := by
  intro n urls
  induction urls generalizing n with
  | nil => rfl
  | cons u us ih => simp [buildHttpChecksFrom, ih]

theorem buildHttpChecks_getq (vps : List String) :
    ∀ (urls : List String) (n i : Nat), i < urls.length →
      (buildHttpChecksFrom vps n urls).get? i =
        some { Url := urls.getD i "", VerifyPayload := vps.getD (n + i) "" } := by
  intro urls
  induction urls with
  | nil => intro n i hi; simp at hi
  | cons u us ih =>
    intro n i hi
    cases i with
    | zero =>
      simp only [buildHttpChecksFrom, List.get?]
      by_cases hn : vps.length > n
      · simp [hn]
      · have h1 : vps.getD (n + 0) "" = "" := list_getD_of_len_le vps "" (n + 0) (by omega)
        rw [if_neg hn, h1]
        rfl
    | succ i =>
      have hstep := ih (n + 1) i (by simpa using hi)
      simp only [buildHttpChecksFrom, List.get?]
      rw [hstep]
      have harith : n + 1 + i = n + (i + 1) := by omega
      rw [harith]
      rfl

theorem buildHttpChecks_vp_empty :
    ∀ (urls : List String) (n : Nat) (c : HttpCheck),
      c ∈ buildHttpChecksFrom [] n urls → c.VerifyPayload = "" := by
  intro urls
  induction urls with
  | nil => intro n c hc; simp [buildHttpChecksFrom] at hc
  | cons u us ih =>
    intro n c hc
    simp only [buildHttpChecksFrom] at hc
    rcases List.mem_cons.mp hc with rfl | h
    · simp
    · exact ih (n + 1) c h

/-- C10: if at least one `--verify-payload` value is supplied and the count
differs from the `--http` count, `parseOptions` never returns an `Options`
(and, once the earlier log-level and script stages pass, it returns exactly
the mismatch error); on success the `i`-th constructed check pairs the
`i`-th URL with the `i`-th verify payload, and with no verify payloads every
check carries the empty pattern. -/
theorem parseOptions_verify_payload (stat : String → Option Bool) (f : FlagValues) :
    (f.verifyPayloads.length > 0 → f.verifyPayloads.length ≠ f.http.length →
      (∀ opts, parseOptions stat f ≠ .ok opts) ∧
      (parseLogLevelOk f.logLevel = true →
        ∀ l, ParseScripts stat f.scripts = .ok l →
        parseOptions stat f =
          .error "if --verify-payload is specified, it must be specified exactly once per --http flag")) ∧
    (∀ opts, parseOptions stat f = .ok opts →
      opts.HttpChecks.length = f.http.length ∧
      (∀ i, i < f.http.length →
        opts.HttpChecks.get? i =
          some { Url := f.http.getD i "", VerifyPayload := f.verifyPayloads.getD i "" }) ∧
      (f.verifyPayloads = [] → ∀ c ∈ opts.HttpChecks, c.VerifyPayload = "")) := by
  constructor
  · intro hpos hne
    have hcond : f.verifyPayloads.length > 0 ∧ f.verifyPayloads.length ≠ f.http.length :=
      ⟨hpos, hne⟩
    constructor
    · intro opts hok
      by_cases hll : parseLogLevelOk f.logLevel
      · cases hps : ParseScripts stat f.scripts with
        | error e => simp [parseOptions, hll, hps] at hok
        | ok l => simp [parseOptions, hll, hps, hcond] at hok
      · simp [parseOptions, hll] at hok
    · intro hll l hps
      simp [parseOptions, hll, hps, hcond]
  · intro opts hok
    by_cases hll : parseLogLevelOk f.logLevel
    · cases hps : ParseScripts stat f.scripts with
      | error e => simp [parseOptions, hll, hps] at hok
      | ok l =>
        by_cases hcond : f.verifyPayloads.length > 0 ∧ f.verifyPayloads.length ≠ f.http.length
        · simp [parseOptions, hll, hps, hcond] at hok
        · by_cases hone : f.ports.length = 0 ∧ l.length = 0 ∧
              (buildHttpChecksFrom f.verifyPayloads 0 f.http).length = 0
          · simp [parseOptions, hll, hps, hcond, hone] at hok
          · by_cases hlis : f.listener = ""
            · simp only [parseOptions, hll, hps, hcond, hone, hlis] at hok
              split at hok <;> simp at hok
            · simp only [parseOptions, hll, hps, hcond, hone, hlis, Bool.not_true,
                Bool.false_eq_true, if_false, if_true] at hok
              injection hok with hok
              subst hok
              refine ⟨?_, ?_, ?_⟩
              · exact buildHttpChecks_length f.verifyPayloads 0 f.http
              · intro i hi
                have := buildHttpChecks_getq f.verifyPayloads f.http 0 i hi
                simpa using this
              · intro hvp c hc
                rw [hvp] at hc
                exact buildHttpChecks_vp_empty f.http 0 c hc
    · simp [parseOptions, hll] at hok

/-- C10 witness: one `--http` with two `--verify-payload` values is rejected
with the pairing error. -/
theorem parseOptions_verify_payload_witness :
    parseOptions statNone flagsMismatch =
      .error "if --verify-payload is specified, it must be specified exactly once per --http flag" :=
  ((parseOptions_verify_payload statNone flagsMismatch).1 (by decide) (by decide)).2
    (by decide) [] rfl
